import Mathlib

/-!
Shallow embedding of the task/bundle execution framework in
`python/astra/base.py`: the parameter model (`Parameter`, `TupleParameter`,
`DictParameter`), `TaskInstance.parse_parameters`, the execution-context
builder `TaskInstance.get_or_create_context`, the status updaters
(`TaskInstance.update_status` and `_update_status`), and the stage timer
(`TaskStageTimer.__enter__` / `__exit__` / `set_internal_timing`).

Python floats are modelled as rationals, Python dicts as association lists,
and database side effects as explicit state passing over a `DB` record.
-/

deriving instance DecidableEq for Except

namespace Astra

/-- A Python value as supplied for a task parameter: an unsized scalar
(`vInt`), a string (`vStr`), or a sized iterable (`vList`).  Strings and
lists are the two cases `parse_parameters` distinguishes (`isinstance(value,
str)` / `isinstance(value, Iterable)`); scalars stand for everything with no
`len()`. -/
inductive PValue where
  | vInt : Int → PValue
  | vStr : String → PValue
  | vList : List PValue → PValue

mutual

def PValue.decEq : (a b : PValue) → Decidable (a = b)
  | .vInt x, .vInt y =>
    if h : x = y then isTrue (by rw [h])
    else isFalse (by intro hc; injection hc; contradiction)
  | .vStr x, .vStr y =>
    if h : x = y then isTrue (by rw [h])
    else isFalse (by intro hc; injection hc; contradiction)
  | .vList x, .vList y =>
    match PValue.decEqList x y with
    | isTrue h => isTrue (by rw [h])
    | isFalse h => isFalse (by intro hc; injection hc; contradiction)
  | .vInt _, .vStr _ => isFalse (by intro hc; injection hc)
  | .vInt _, .vList _ => isFalse (by intro hc; injection hc)
  | .vStr _, .vInt _ => isFalse (by intro hc; injection hc)
  | .vStr _, .vList _ => isFalse (by intro hc; injection hc)
  | .vList _, .vInt _ => isFalse (by intro hc; injection hc)
  | .vList _, .vStr _ => isFalse (by intro hc; injection hc)

def PValue.decEqList : (a b : List PValue) → Decidable (a = b)
  | [], [] => isTrue rfl
  | [], _ :: _ => isFalse (by intro hc; injection hc)
  | _ :: _, [] => isFalse (by intro hc; injection hc)
  | x :: xs, y :: ys =>
    match PValue.decEq x y, PValue.decEqList xs ys with
    | isTrue h1, isTrue h2 => isTrue (by rw [h1, h2])
    | isFalse h1, _ => isFalse (by intro hc; injection hc; contradiction)
    | _, isFalse h2 => isFalse (by intro hc; injection hc; contradiction)

end

instance : DecidableEq PValue := PValue.decEq

/-- `len(value)` with the `try/except` fallback to 1 of base.py:360-363
(`len()` raises on an int, so its length is recorded as 1). -/
def pyLen : PValue → Nat
  | .vInt _ => 1
  | .vStr s => s.length
  | .vList l => l.length

/-- `isinstance(value, str)`. -/
def isStr : PValue → Bool
  | .vStr _ => true
  | _ => false

/-- `isinstance(value, collections.abc.Iterable)`: strings and lists are
iterable, bare scalars are not. -/
def isIterable : PValue → Bool
  | .vInt _ => false
  | _ => true

/-- Python indexing `value[i]`: defined on lists and strings (a string index
yields a one-character string), undefined on scalars. -/
def pyIndex : PValue → Nat → Option PValue
  | .vInt _, _ => none
  | .vStr s, i => (s.data.get? i).map (fun c => .vStr ⟨[c]⟩)
  | .vList l, i => l.get? i

/-- Total version of `value[i]`, falling back to the value itself where the
index is undefined (only ever used where `pyIndex` is defined). -/
def pyAt (v : PValue) (i : Nat) : PValue := (pyIndex v i).getD v

/-- Which `Parameter` subclass a declaration uses: `Parameter` itself, or the
structured subclasses `TupleParameter` / `DictParameter`. -/
inductive ParamKind where
  | plain
  | tupleParam
  | dictParam
deriving DecidableEq

/-- A class-level parameter declaration (base.py:206-228): the `bundled`
flag, the subclass, and the optional `default`. -/
structure Param where
  bundled : Bool
  kind : ParamKind
  default : Option PValue
deriving DecidableEq

/-- `isinstance(parameter, (TupleParameter, DictParameter))`. -/
def isStructured (p : Param) : Bool :=
  match p.kind with
  | .plain => false
  | .tupleParam => true
  | .dictParam => true

/-- One entry of the `parameters` dict built in the first loop of
`parse_parameters` (base.py:344-365): `(parameter, value, default, length)`
keyed by name. -/
structure PEntry where
  name : String
  param : Param
  value : PValue
  default : Bool
  length : Nat
deriving DecidableEq

/-- Errors raised by the embedded fragment of base.py. -/
inductive AErr where
  | missingParams : List String → AErr
  | unexpectedParams : List String → AErr
  | bundledParam : String → AErr
  | mismatchedBundling : List (String × Nat) → AErr
  | indexError : AErr
  | unknownStatus : String → AErr
  | noContext : AErr
  | unpackMismatch : AErr
deriving DecidableEq

/-- Keyword-argument lookup (first binding wins, as in a Python dict). -/
def lookupKw (kwargs : List (String × PValue)) (n : String) : Option PValue :=
  match kwargs with
  | [] => none
  | (k, v) :: rest => if k = n then some v else lookupKw rest n

/-- Resolution of one declared parameter against the kwargs
(base.py:344-365): supplied value, else declared default, else missing. -/
def resolveEntry (kwargs : List (String × PValue)) (n : String) (p : Param) :
    Option PEntry :=
  match lookupKw kwargs n with
  | some v => some ⟨n, p, v, false, pyLen v⟩
  | none =>
    match p.default with
    | some v => some ⟨n, p, v, true, pyLen v⟩
    | none => none

/-- The `missing` list of base.py:339-354: declared parameters with neither
a supplied value nor a default. -/
def missingNames (decls : List (String × Param))
    (kwargs : List (String × PValue)) : List String :=
  (decls.filter (fun d => (resolveEntry kwargs d.1 d.2).isNone)).map (·.1)

/-- The `unexpected_parameters` of base.py:374: kwargs keys that are not
declared. -/
def unexpectedNames (decls : List (String × Param))
    (kwargs : List (String × PValue)) : List String :=
  ((kwargs.map (·.1)).filter (fun k => !(decls.map (·.1)).contains k)).dedup

/-- First phase of `parse_parameters` (base.py:339-378): resolve every
declared parameter, failing on missing parameters (all reported at once)
and then on unexpected keyword arguments. -/
def resolveParams (decls : List (String × Param))
    (kwargs : List (String × PValue)) : Except AErr (List PEntry) :=
  match missingNames decls kwargs with
  | m :: ms => .error (.missingParams (m :: ms))
  | [] =>
    match unexpectedNames decls kwargs with
    | u :: us => .error (.unexpectedParams (u :: us))
    | [] => .ok (decls.filterMap (fun d => resolveEntry kwargs d.1 d.2))

/-- The condition of base.py:384-390: a bundled, non-structured parameter
holding a non-string iterable of length > 1. -/
def violatesBundled (e : PEntry) : Bool :=
  e.param.bundled && !isStructured e.param && !isStr e.value &&
    isIterable e.value && decide (1 < e.length)

/-- The bundled-parameter check of base.py:381-395: the loop raises a
`TypeError` naming the first offending parameter. -/
def checkBundled (ps : List PEntry) : Except AErr Unit :=
  match ps.find? violatesBundled with
  | some e => .error (.bundledParam e.name)
  | none => .ok ()

/-- Whether an entry contributes to `relevant_lengths` (base.py:397-404):
not bundled, not defaulted, not structured, and not a string. -/
def relevantKeep (e : PEntry) : Bool :=
  !e.param.bundled && !e.default && !isStructured e.param && !isStr e.value

/-- The `relevant_lengths` dict of base.py:380-404. -/
def relevantLengths (ps : List PEntry) : List (String × Nat) :=
  (ps.filter relevantKeep).map (fun e => (e.name, e.length))

/-- `set(relevant_lengths.values()).difference({1})` (base.py:406), as a
duplicate-free list. -/
def distinctLengths (ps : List PEntry) : List Nat :=
  (((relevantLengths ps).map Prod.snd).filter (fun l => l ≠ 1)).dedup

/-- Bundle-size inference (base.py:406-417): no length other than 1 means a
single task, exactly one such length is the bundle size, and more than one
is a mismatched-bundling error. -/
def bundleSizeOf (ps : List PEntry) : Except AErr Nat :=
  match distinctLengths ps with
  | [] => .ok 1
  | [l] => .ok l
  | _ => .error (.mismatchedBundling (relevantLengths ps))

/-- One entry of the `parsed` dict returned by `parse_parameters`
(base.py:419-430): the entry plus its `indexed` flag. -/
structure ParsedEntry where
  name : String
  param : Param
  value : PValue
  default : Bool
  length : Nat
  indexed : Bool
deriving DecidableEq

/-- The second pass of base.py:420-429: replace the length with the
`indexed` decision. -/
def markIndexed (bundleSize : Nat) (e : PEntry) : ParsedEntry :=
  ⟨e.name, e.param, e.value, e.default, e.length,
    decide (1 < bundleSize) && (e.length == bundleSize) && !e.default &&
      !e.param.bundled && !isStructured e.param⟩

/-- `TaskInstance.parse_parameters` (base.py:334-430). -/
def parse_parameters (decls : List (String × Param))
    (kwargs : List (String × PValue)) :
    Except AErr (Nat × List ParsedEntry) :=
  match resolveParams decls kwargs with
  | .error e => .error e
  | .ok ps =>
    match checkBundled ps with
    | .error e => .error e
    | .ok _ =>
      match bundleSizeOf ps with
      | .error e => .error e
      | .ok bs => .ok (bs, ps.map (markIndexed bs))

example :
    parse_parameters [("x", ⟨false, .plain, none⟩)]
      [("x", .vList [.vInt 1, .vInt 2, .vInt 3])] =
    .ok (3, [⟨"x", ⟨false, .plain, none⟩, .vList [.vInt 1, .vInt 2, .vInt 3],
      false, 3, true⟩]) := by decide

/-- A value stored in the `context["timing"]` dict: a float (modelled as a
rational) or a list of floats (a per-task breakdown). -/
inductive TVal where
  | tnum : ℚ → TVal
  | tlist : List ℚ → TVal
deriving DecidableEq

/-- The `timing` dict, as an association list with unique keys. -/
abbrev TMap := List (String × TVal)

/-- Dict read: `timing.get(k)` / `k in timing`. -/
def tget (m : TMap) (k : String) : Option TVal :=
  match m with
  | [] => none
  | (k', v) :: rest => if k' = k then some v else tget rest k

/-- Dict write: `timing[k] = v`. -/
def tset (m : TMap) (k : String) (v : TVal) : TMap :=
  match m with
  | [] => [(k, v)]
  | (k', v') :: rest => if k' = k then (k, v) :: rest else (k', v') :: tset rest k v

/-- Dict removal: `timing.pop(k, None)`. -/
def tpop (m : TMap) (k : String) : TMap :=
  match m with
  | [] => []
  | (k', v') :: rest => if k' = k then tpop rest k else (k', v') :: tpop rest k

/-- The numeric content of a timing slot.  The program only ever stores
numbers under the scalar keys this is applied to. -/
def tvalNum : TVal → ℚ
  | .tnum q => q
  | .tlist _ => 0

/-- `timing.get(k, 0)` read as a number (base.py:110). -/
def tgetNum (m : TMap) (k : String) : ℚ :=
  match tget m k with
  | some v => tvalNum v
  | none => 0

/-- `timing.get(f"time_{stage}_per_task", [0])` (base.py:88-90). -/
def perTaskList (m : TMap) (stage : String) : List ℚ :=
  match tget m ("time_" ++ stage ++ "_per_task") with
  | some (.tlist l) => l
  | some (.tnum q) => [q]
  | none => [0]

/-- The stage-total writes of `set_internal_timing` (base.py:92-106): if no
bundle-overhead entry exists yet, store `elapsed - sum(per_task)` as the
overhead and `elapsed` as the stage time; otherwise keep the cached
overhead and store `sum(per_task) + overhead` as the stage time. -/
def stageWrite (stage : String) (timeActual : ℚ) (m : TMap) : TMap :=
  match tget m ("time_" ++ stage ++ "_bundle_overhead") with
  | none =>
    tset (tset m ("time_" ++ stage ++ "_bundle_overhead")
        (.tnum (timeActual - (perTaskList m stage).sum)))
      ("time_" ++ stage) (.tnum timeActual)
  | some bv =>
    tset m ("time_" ++ stage) (.tnum ((perTaskList m stage).sum + tvalNum bv))

/-- The `time_total` recomputation of base.py:108-113. -/
def totalOf (m : TMap) : ℚ :=
  tgetNum m "time_pre_execute" + tgetNum m "time_execute" +
    tgetNum m "time_post_execute"

/-- `TaskStageTimer.set_internal_timing` (base.py:83-113) acting on the
timing dict. -/
def set_internal_timing (stage : String) (timeActual : ℚ) (m : TMap) : TMap :=
  tset (stageWrite stage timeActual m) "time_total"
    (.tnum (totalOf (stageWrite stage timeActual m)))

/-- `TaskStageTimer.__enter__` (base.py:39-50) acting on the timing dict:
pop `time_<stage>` and `time_<stage>_bundle_overhead`. -/
def timerEnterClear (stage : String) (m : TMap) : TMap :=
  tpop (tpop m ("time_" ++ stage)) ("time_" ++ stage ++ "_bundle_overhead")

/-- A row of the `Task` table as far as this core touches it. -/
structure TaskRec where
  id : Nat
  name : String
  parameters : List (String × PValue)
  version : String
  status : Option String
  completed : Option ℚ
deriving DecidableEq

/-- A row of the `Bundle` table. -/
structure BundleRec where
  id : Nat
  status : Option String
deriving DecidableEq

/-- The in-memory execution context dict (base.py:504-509): the `iterable`
field is `none` when the dict has no `"iterable"` key. -/
structure Ctx where
  input_data_products : List Nat
  tasks : List TaskRec
  bundle : Option BundleRec
  iterable : Option (List (TaskRec × List Nat × List (String × PValue)))
  timing : TMap
deriving DecidableEq

/-- The empty context a fresh instance starts with (base.py:253). -/
def Ctx.empty : Ctx :=
  { input_data_products := [], tasks := [], bundle := none, iterable := none,
    timing := [] }

/-- The persisted state this core touches: `Task`, `Bundle`, the two link
tables, and the `Status` lookup table (by description). -/
structure DB where
  nextTaskId : Nat
  nextBundleId : Nat
  tasks : List TaskRec
  bundles : List BundleRec
  taskBundles : List (Nat × Nat)
  taskInputDPs : List (Nat × Nat)
  statuses : List String
deriving DecidableEq

/-- A `TaskInstance` after `__init__`: the inferred bundle size and parsed
parameters (base.py:256), the execution context, and the input data
products (already resolved to identifiers). -/
structure TaskInstance where
  taskName : String
  bundle_size : Nat
  parameters : List ParsedEntry
  context : Ctx
  input_data_products : List Nat
deriving DecidableEq

/-- The framework version tag stamped on created tasks (`__version__`). -/
def astraVersion : String := "0.3"

/-- `mapM` over `Except`, written by plain recursion. -/
def mapE {α β E : Type} (f : α → Except E β) : List α → Except E (List β)
  | [] => .ok []
  | a :: as =>
    match f a with
    | .error e => .error e
    | .ok b =>
      match mapE f as with
      | .error e => .error e
      | .ok bs => .ok (b :: bs)

/-- One parameter of the snapshot of base.py:513-524: `value[i]` for an
indexed parameter, the raw value otherwise. -/
def snapEntry (i : Nat) (e : ParsedEntry) : Except AErr (String × PValue) :=
  if e.indexed then
    match pyIndex e.value i with
    | some v => .ok (e.name, v)
    | none => .error .indexError
  else .ok (e.name, e.value)

/-- The per-task parameter snapshot of base.py:513-524. -/
def snapshotAt (params : List ParsedEntry) (i : Nat) :
    Except AErr (List (String × PValue)) :=
  mapE (snapEntry i) params

/-- The `Task.create` of base.py:527-531. -/
def mkTaskRec (inst : TaskInstance) (tid : Nat)
    (ps : List (String × PValue)) : TaskRec :=
  { id := tid, name := inst.taskName, parameters := ps,
    version := astraVersion, status := none, completed := none }

/-- The task-creation loop of base.py:511-537, with ids handed out by the
store starting from `startId`. -/
def buildTasks (inst : TaskInstance) (startId : Nat) :
    Except AErr (List TaskRec) :=
  mapE (fun i =>
    match snapshotAt inst.parameters i with
    | .ok ps => .ok (mkTaskRec inst (startId + i) ps)
    | .error e => .error e) (List.range inst.bundle_size)

/-- `TaskInstance.get_or_create_context` (base.py:496-545): return the
cached context when it already has an `iterable`; otherwise create one task
row per batch index (with its input-data-product links), a bundle row with
task links when the bundle size exceeds 1, merge the built context into the
instance, and return the built context. -/
def get_or_create_context (inst : TaskInstance) (db : DB) :
    Except AErr (Ctx × TaskInstance × DB) :=
  match inst.context.iterable with
  | some _ => .ok (inst.context, inst, db)
  | none =>
    match buildTasks inst db.nextTaskId with
    | .error e => .error e
    | .ok tasks =>
      let iter := tasks.map (fun t => (t, inst.input_data_products, t.parameters))
      let dpLinks := tasks.flatMap (fun t =>
        inst.input_data_products.map (fun d => (t.id, d)))
      let bundle : Option BundleRec :=
        if 1 < inst.bundle_size then some ⟨db.nextBundleId, none⟩ else none
      let built : Ctx :=
        { input_data_products := inst.input_data_products, tasks := tasks,
          bundle := bundle, iterable := some iter, timing := [] }
      let inst' : TaskInstance :=
        { inst with context := { built with timing := inst.context.timing } }
      let db' : DB :=
        { db with
          nextTaskId := db.nextTaskId + inst.bundle_size,
          nextBundleId :=
            if 1 < inst.bundle_size then db.nextBundleId + 1 else db.nextBundleId,
          tasks := db.tasks ++ tasks,
          bundles := db.bundles ++
            (if 1 < inst.bundle_size then [⟨db.nextBundleId, none⟩] else []),
          taskBundles := db.taskBundles ++
            (if 1 < inst.bundle_size then
              tasks.map (fun t => (t.id, db.nextBundleId)) else []),
          taskInputDPs := db.taskInputDPs ++ dpLinks }
      .ok (built, inst', db')

/-- `_update_status` (base.py:594-639).  `Status.get` fails on an unknown
description.  With a bundle: update the bundle row, update the status *and*
the completion timestamp of every matching task row, and mirror both onto
the in-memory context tasks.  Without a bundle: exactly one context task
must exist; its status is set and saved, and the line
`task.completed == completed` of base.py:634 is a comparison statement, so
the completion timestamp is never assigned on this branch. -/
def _update_status (inst : TaskInstance) (description : String)
    (tasksWhere : TaskRec → Bool) (now : ℚ) (db : DB) :
    Except AErr (Nat × TaskInstance × DB) :=
  if description ∈ db.statuses then
    let tasks := inst.context.tasks
    match inst.context.bundle with
    | some b =>
      let bcount := (db.bundles.filter (fun r => r.id == b.id)).length
      let db1 : DB :=
        { db with bundles := db.bundles.map (fun r =>
            if r.id == b.id then { r with status := some description } else r) }
      let ids := tasks.map (fun t => t.id)
      let hit := fun (r : TaskRec) => ids.contains r.id && tasksWhere r
      let tcount := (db1.tasks.filter hit).length
      let db2 : DB :=
        { db1 with tasks := db1.tasks.map (fun r =>
            if hit r then
              { r with status := some description, completed := some now }
            else r) }
      let tasks' := tasks.map (fun t =>
        { t with status := some description, completed := some now })
      let b' : BundleRec := { b with status := some description }
      let inst' : TaskInstance :=
        { inst with context :=
          { inst.context with bundle := some b', tasks := tasks' } }
      .ok (bcount + tcount, inst', db2)
    | none =>
      match tasks with
      | [] => .error .noContext
      | [t] =>
        let t' := { t with status := some description }
        let db1 : DB :=
          { db with tasks := db.tasks.map (fun r => if r.id == t.id then t' else r) }
        let inst' : TaskInstance :=
          { inst with context := { inst.context with tasks := [t'] } }
        .ok (1, inst', db1)
      | _ => .error .unpackMismatch
  else .error (.unknownStatus description)

/-- The result of the safe status-update path: the affected-row count, or
the `False` returned after a logged failure (base.py:559-565). -/
inductive USResult where
  | count : Nat → USResult
  | failedFlag : USResult
deriving DecidableEq

/-- The `safe=True` path of `TaskInstance.update_status` (base.py:560-565):
catch any failure of `_update_status` and return `False`. -/
def update_status_safe (inst : TaskInstance) (description : String)
    (tasksWhere : TaskRec → Bool) (now : ℚ) (db : DB) :
    USResult × TaskInstance × DB :=
  match _update_status inst description tasksWhere now db with
  | .ok (n, i, d) => (.count n, i, d)
  | .error _ => (.failedFlag, inst, db)

/-- `TaskInstance.update_status` (base.py:559-567). -/
def update_status (inst : TaskInstance) (description : String)
    (tasksWhere : TaskRec → Bool) (now : ℚ) (safe : Bool) (db : DB) :
    Except AErr (USResult × TaskInstance × DB) :=
  if safe then .ok (update_status_safe inst description tasksWhere now db)
  else
    match _update_status inst description tasksWhere now db with
    | .ok (n, i, d) => .ok (.count n, i, d)
    | .error e => .error e

/-- `self.stage.replace("_", "-")` (base.py:79): the stage names contain
only single-character occurrences, so the replacement is a character map. -/
def undToDash (s : String) : String :=
  ⟨s.data.map (fun c => if c = '_' then '-' else c)⟩

/-- The failure description written by `TaskStageTimer.__exit__`
(base.py:78-80). -/
def failedDescription (stage : String) : String :=
  "failed-" ++ undToDash stage

/-- `TaskStageTimer.__enter__` on the instance. -/
def timerEnter (stage : String) (inst : TaskInstance) : TaskInstance :=
  { inst with context :=
    { inst.context with timing := timerEnterClear stage inst.context.timing } }

/-- The timing part of `TaskStageTimer.__exit__` (base.py:52-55). -/
def applyStageTiming (stage : String) (elapsed : ℚ) (inst : TaskInstance) :
    TaskInstance :=
  { inst with context :=
    { inst.context with timing :=
      set_internal_timing stage elapsed inst.context.timing } }

/-- A stage wrapped in `TaskStageTimer` (the `with` statement of
base.py:136-137 together with `__enter__`/`__exit__`, base.py:39-81):
enter clears the stage timing, the body runs, the exit records the
elapsed time; on a body failure the status is set to `failed-<stage>`
through the safe update path and the same failure is re-raised (the
`__exit__` of base.py:81 returns `None`, so the exception propagates). -/
def runStage {E A : Type} (stage : String) (elapsed now : ℚ)
    (body : TaskInstance → Except E A × TaskInstance)
    (inst : TaskInstance) (db : DB) : Except E A × TaskInstance × DB :=
  let step := body (timerEnter stage inst)
  let inst1 := applyStageTiming stage elapsed step.2
  match step.1 with
  | .ok a => (.ok a, inst1, db)
  | .error e =>
    let upd := update_status_safe inst1 (failedDescription stage)
      (fun _ => true) now db
    (.error e, upd.2.1, upd.2.2)

lemma tget_tset_self (m : TMap) (k : String) (v : TVal) :
    tget (tset m k v) k = some v := by
  induction m with
  | nil => simp [tset, tget]
  | cons p rest ih =>
    obtain ⟨k0, v0⟩ := p
    by_cases h : k0 = k
    · simp [tset, tget, h]
    · simp [tset, tget, h, ih]

lemma tget_tset_ne (m : TMap) (k k' : String) (v : TVal) (h : k' ≠ k) :
    tget (tset m k v) k' = tget m k' := by
  induction m with
  | nil => simp [tset, tget, Ne.symm h]
  | cons p rest ih =>
    obtain ⟨k0, v0⟩ := p
    by_cases h0 : k0 = k
    · subst h0
      simp [tset, tget, Ne.symm h]
    · by_cases h1 : k0 = k'
      · simp [tset, tget, h0, h1, h]
      · simp [tset, tget, h0, h1, ih]

lemma tget_tpop_self (m : TMap) (k : String) : tget (tpop m k) k = none := by
  induction m with
  | nil => simp [tpop, tget]
  | cons p rest ih =>
    obtain ⟨k0, v0⟩ := p
    by_cases h0 : k0 = k
    · simp [tpop, tget, h0, ih]
    · simp [tpop, tget, h0, ih]

lemma tget_tpop_ne (m : TMap) (k k' : String) (h : k' ≠ k) :
    tget (tpop m k) k' = tget m k' := by
  induction m with
  | nil => simp [tpop, tget]
  | cons p rest ih =>
    obtain ⟨k0, v0⟩ := p
    by_cases h0 : k0 = k
    · subst h0
      simp [tpop, tget, Ne.symm h, ih]
    · by_cases h1 : k0 = k'
      · simp [tpop, tget, h0, h1, h]
      · simp [tpop, tget, h0, h1, ih]

lemma key_ne_bkey (stage : String) :
    ("time_" ++ stage : String) ≠ "time_" ++ stage ++ "_bundle_overhead" := by
  intro h
  have hl := congrArg String.length h
  simp [String.length_append] at hl
  exact absurd hl (by decide)

lemma tgetNum_tset_ne (m : TMap) (k k' : String) (v : TVal) (h : k' ≠ k) :
    tgetNum (tset m k v) k' = tgetNum m k' := by
  simp [tgetNum, tget_tset_ne m k k' v h]

/-- C7: after every stage-timer completion — whatever combination of
`time_*` entries was present before — the recorded `time_total` equals the
sum of the `time_pre_execute`, `time_execute` and `time_post_execute`
entries of the resulting timing dict, an absent entry counting as 0. -/
theorem time_total_invariant (stage : String) (timeActual : ℚ) (m : TMap) :
    tgetNum (set_internal_timing stage timeActual m) "time_total" =
      tgetNum (set_internal_timing stage timeActual m) "time_pre_execute" +
      tgetNum (set_internal_timing stage timeActual m) "time_execute" +
      tgetNum (set_internal_timing stage timeActual m) "time_post_execute" := by
  have h1 : ("time_pre_execute" : String) ≠ "time_total" := by decide
  have h2 : ("time_execute" : String) ≠ "time_total" := by decide
  have h3 : ("time_post_execute" : String) ≠ "time_total" := by decide
  unfold set_internal_timing
  rw [tgetNum_tset_ne _ _ _ _ h1, tgetNum_tset_ne _ _ _ _ h2,
    tgetNum_tset_ne _ _ _ _ h3]
  simp [tgetNum, tget_tset_self, tvalNum, totalOf]

/-- C6 (amended): entering the stage timer clears the previously recorded
`time_<stage>` and `time_<stage>_bundle_overhead` entries and leaves every
other timing entry — in particular `time_<stage>_per_task` — untouched. -/
theorem stage_timer_enter_clears_keys (stage : String) (m : TMap) :
    tget (timerEnterClear stage m) ("time_" ++ stage) = none ∧
    tget (timerEnterClear stage m) ("time_" ++ stage ++ "_bundle_overhead") =
      none ∧
    ∀ k, k ≠ "time_" ++ stage → k ≠ "time_" ++ stage ++ "_bundle_overhead" →
      tget (timerEnterClear stage m) k = tget m k := by
  refine ⟨?_, ?_, ?_⟩
  · unfold timerEnterClear
    rw [tget_tpop_ne _ _ _ (key_ne_bkey stage), tget_tpop_self]
  · unfold timerEnterClear
    rw [tget_tpop_self]
  · intro k hk1 hk2
    unfold timerEnterClear
    rw [tget_tpop_ne _ _ _ hk2, tget_tpop_ne _ _ _ hk1]

theorem stage_timer_enter_clears_keys_witness :
    tget (timerEnterClear "execute"
        [("time_execute", .tnum 5), ("time_execute_bundle_overhead", .tnum 0),
         ("time_total", .tnum 5)]) "time_execute" = none ∧
    tget (timerEnterClear "execute"
        [("time_execute", .tnum 5), ("time_execute_bundle_overhead", .tnum 0),
         ("time_total", .tnum 5)]) "time_execute_bundle_overhead" = none ∧
    tget (timerEnterClear "execute"
        [("time_execute", .tnum 5), ("time_execute_bundle_overhead", .tnum 0),
         ("time_total", .tnum 5)]) "time_total" =
      tget [("time_execute", .tnum 5), ("time_execute_bundle_overhead", .tnum 0),
         ("time_total", .tnum 5)] "time_total" := by
  obtain ⟨h1, h2, h3⟩ := stage_timer_enter_clears_keys "execute"
    [("time_execute", .tnum 5), ("time_execute_bundle_overhead", .tnum 0),
     ("time_total", .tnum 5)]
  exact ⟨h1, h2, h3 "time_total" (by decide) (by decide)⟩

/-- C6 (counterexample to the claim as stated): after a first `execute`
attempt left `{time_execute_per_task: [5], time_execute_bundle_overhead: 0,
time_execute: 5, time_total: 5}`, re-entering the stage timer does *not*
clear the `time_execute_per_task` entry, and a second attempt measuring 2
seconds records `time_execute_bundle_overhead = 2 - 5 = -3`: the stale
per-task breakdown from the first attempt contributes to the second
attempt's recorded stage times. -/
theorem stage_timer_stale_per_task :
    tget (timerEnterClear "execute"
        [("time_execute_per_task", .tlist [5]),
         ("time_execute_bundle_overhead", .tnum 0),
         ("time_execute", .tnum 5), ("time_total", .tnum 5)])
      "time_execute_per_task" = some (.tlist [5]) ∧
    tgetNum (set_internal_timing "execute" 2 (timerEnterClear "execute"
        [("time_execute_per_task", .tlist [5]),
         ("time_execute_bundle_overhead", .tnum 0),
         ("time_execute", .tnum 5), ("time_total", .tnum 5)]))
      "time_execute_bundle_overhead" = -3 := by
  constructor
  · simp [timerEnterClear, tpop, tget]
  · simp [set_internal_timing, stageWrite, perTaskList, timerEnterClear,
      tpop, tget, tset, tgetNum, tvalNum, totalOf]
    norm_num

/-- C9: the safe variant of `update_status` never propagates a failure: it
returns the affected-row count of a successful `_update_status`, returns
`False` whenever `_update_status` fails, and in particular returns `False`
(leaving all state untouched) on an instance whose context has no bundle
and no task records. -/
theorem update_status_safe_never_raises (inst : TaskInstance)
    (description : String) (tasksWhere : TaskRec → Bool) (now : ℚ) (db : DB) :
    update_status inst description tasksWhere now true db =
      .ok (update_status_safe inst description tasksWhere now db) ∧
    (∀ n i' db',
      _update_status inst description tasksWhere now db = .ok (n, i', db') →
      update_status inst description tasksWhere now true db =
        .ok (.count n, i', db')) ∧
    (∀ e, _update_status inst description tasksWhere now db = .error e →
      update_status inst description tasksWhere now true db =
        .ok (.failedFlag, inst, db)) ∧
    (inst.context.bundle = none → inst.context.tasks = [] →
      update_status inst description tasksWhere now true db =
        .ok (.failedFlag, inst, db)) := by
  refine ⟨rfl, ?_, ?_, ?_⟩
  · intro n i' db' h
    simp [update_status, update_status_safe, h]
  · intro e h
    simp [update_status, update_status_safe, h]
  · intro hb ht
    by_cases hdesc : description ∈ db.statuses
    · simp [update_status, update_status_safe, _update_status, hdesc, hb, ht]
    · simp [update_status, update_status_safe, _update_status, hdesc]

def c9inst : TaskInstance :=
  { taskName := "m.T", bundle_size := 1, parameters := [],
    context := Ctx.empty, input_data_products := [] }

def c9db : DB :=
  { nextTaskId := 0, nextBundleId := 0, tasks := [], bundles := [],
    taskBundles := [], taskInputDPs := [],
    statuses := ["completed", "running"] }

theorem update_status_safe_never_raises_witness :
    update_status c9inst "completed" (fun _ => true) 0 true c9db =
      .ok (.failedFlag, c9inst, c9db) :=
  (update_status_safe_never_raises c9inst "completed" (fun _ => true) 0
    c9db).2.2.2 rfl rfl

/-- C8: when a stage body fails, the stage timer records the elapsed time,
routes a `failed-<stage>` description (underscores replaced by dashes) into
the safe status-update path — a total function, so it cannot itself fail —
and the stage returns the original failure unchanged. -/
theorem stage_failure_reraises {E A : Type} (stage : String)
    (elapsed now : ℚ) (body : TaskInstance → Except E A × TaskInstance)
    (inst : TaskInstance) (db : DB) (e : E) (inst1 : TaskInstance)
    (h : body (timerEnter stage inst) = (.error e, inst1)) :
    runStage stage elapsed now body inst db =
      (.error e,
       (update_status_safe (applyStageTiming stage elapsed inst1)
         (failedDescription stage) (fun _ => true) now db).2.1,
       (update_status_safe (applyStageTiming stage elapsed inst1)
         (failedDescription stage) (fun _ => true) now db).2.2) := by
  simp [runStage, h]

def c8task : TaskRec :=
  { id := 3, name := "m.T", parameters := [], version := astraVersion,
    status := none, completed := none }

def c8ctx : Ctx :=
  { input_data_products := [], tasks := [c8task], bundle := none,
    iterable := some [(c8task, [], [])], timing := [] }

def c8inst : TaskInstance :=
  { taskName := "m.T", bundle_size := 1, parameters := [],
    context := c8ctx, input_data_products := [] }

def c8db : DB :=
  { nextTaskId := 4, nextBundleId := 0, tasks := [c8task], bundles := [],
    taskBundles := [], taskInputDPs := [],
    statuses := ["failed-pre-execute"] }

def c8body : TaskInstance → Except Nat Nat × TaskInstance :=
  fun i => (.error 7, i)

theorem stage_failure_reraises_witness :
    runStage "pre_execute" 2 9 c8body c8inst c8db =
      (.error 7,
       (update_status_safe
         (applyStageTiming "pre_execute" 2 (timerEnter "pre_execute" c8inst))
         (failedDescription "pre_execute") (fun _ => true) 9 c8db).2.1,
       (update_status_safe
         (applyStageTiming "pre_execute" 2 (timerEnter "pre_execute" c8inst))
         (failedDescription "pre_execute") (fun _ => true) 9 c8db).2.2) ∧
    failedDescription "pre_execute" = "failed-pre-execute" ∧
    (runStage "pre_execute" 2 9 c8body c8inst c8db).2.1.context.tasks.map
      (fun t => t.status) = [some "failed-pre-execute"] := by
  refine ⟨stage_failure_reraises "pre_execute" 2 9 c8body c8inst c8db 7
    (timerEnter "pre_execute" c8inst) rfl, by decide, ?_⟩
  decide

def c4task : TaskRec :=
  { id := 1, name := "m.T", parameters := [], version := astraVersion,
    status := none, completed := none }

def c4ctxSingle : Ctx :=
  { input_data_products := [], tasks := [c4task], bundle := none,
    iterable := some [(c4task, [], [])], timing := [] }

def c4instSingle : TaskInstance :=
  { taskName := "m.T", bundle_size := 1, parameters := [],
    context := c4ctxSingle, input_data_products := [] }

def c4dbSingle : DB :=
  { nextTaskId := 2, nextBundleId := 0, tasks := [c4task], bundles := [],
    taskBundles := [], taskInputDPs := [],
    statuses := ["completed", "running"] }

def c4bundle : BundleRec := { id := 5, status := none }

def c4ctxBundle : Ctx :=
  { input_data_products := [], tasks := [c4task], bundle := some c4bundle,
    iterable := some [(c4task, [], [])], timing := [] }

def c4instBundle : TaskInstance :=
  { taskName := "m.T", bundle_size := 1, parameters := [],
    context := c4ctxBundle, input_data_products := [] }

def c4dbBundle : DB :=
  { nextTaskId := 2, nextBundleId := 6, tasks := [c4task],
    bundles := [c4bundle], taskBundles := [(1, 5)], taskInputDPs := [],
    statuses := ["completed", "running"] }

/-- C4: code behaviour at the failing inputs.  In the single-task branch a
`completed` update changes the task's status but leaves its completion
timestamp unassigned (`task.completed == completed` at base.py:634 is a
comparison, not an assignment); in the bundle branch a `running` update
writes the completion timestamp even though the description is not
`completed` (base.py:615 passes `completed` unconditionally). -/
theorem update_status_completed_timestamp_behavior :
    Except.map (fun r => r.2.2.tasks.map (fun t => t.status))
      (_update_status c4instSingle "completed" (fun _ => true) 7 c4dbSingle) =
      .ok [some "completed"] ∧
    Except.map (fun r => r.2.2.tasks.map (fun t => t.completed))
      (_update_status c4instSingle "completed" (fun _ => true) 7 c4dbSingle) =
      .ok [none] ∧
    Except.map (fun r => r.2.2.tasks.map (fun t => t.completed))
      (_update_status c4instBundle "running" (fun _ => true) 7 c4dbBundle) =
      .ok [some 7] := by
  refine ⟨by decide, by decide, by decide⟩

/-- C5: context building is idempotent.  A context that already has an
`iterable` is returned unchanged with no new persisted rows, and a second
call after a successful build returns the instance's cached context with
the same tasks, bundle and iterable and no further state change. -/
theorem context_build_idempotent (inst : TaskInstance) (db : DB) :
    ((∃ it, inst.context.iterable = some it) →
      get_or_create_context inst db = .ok (inst.context, inst, db)) ∧
    (∀ c1 i1 db1, get_or_create_context inst db = .ok (c1, i1, db1) →
      get_or_create_context i1 db1 = .ok (i1.context, i1, db1) ∧
      i1.context.tasks = c1.tasks ∧ i1.context.bundle = c1.bundle ∧
      i1.context.iterable = c1.iterable) := by
  constructor
  · rintro ⟨it, hit⟩
    simp [get_or_create_context, hit]
  · intro c1 i1 db1 h
    cases hit : inst.context.iterable with
    | some it =>
      rw [get_or_create_context] at h
      rw [hit] at h
      simp at h
      obtain ⟨h1, h2, h3⟩ := h
      subst h1; subst h2; subst h3
      refine ⟨?_, rfl, rfl, rfl⟩
      simp [get_or_create_context, hit]
    | none =>
      rw [get_or_create_context] at h
      rw [hit] at h
      cases hb : buildTasks inst db.nextTaskId with
      | error e => rw [hb] at h; simp at h
      | ok tasks =>
        rw [hb] at h
        simp at h
        obtain ⟨h1, h2, h3⟩ := h
        subst h1; subst h2; subst h3
        refine ⟨?_, rfl, rfl, rfl⟩
        simp [get_or_create_context]

def c5task : TaskRec :=
  { id := 0, name := "m.T", parameters := [], version := astraVersion,
    status := none, completed := none }

def c5fresh : TaskInstance :=
  { taskName := "m.T", bundle_size := 1, parameters := [],
    context := Ctx.empty, input_data_products := [] }

def c5db : DB :=
  { nextTaskId := 0, nextBundleId := 0, tasks := [], bundles := [],
    taskBundles := [], taskInputDPs := [], statuses := [] }

def c5ctx1 : Ctx :=
  { input_data_products := [], tasks := [c5task], bundle := none,
    iterable := some [(c5task, [], [])], timing := [] }

def c5inst1 : TaskInstance := { c5fresh with context := c5ctx1 }

def c5db1 : DB := { c5db with nextTaskId := 1, tasks := [c5task] }

theorem context_build_idempotent_witness :
    get_or_create_context c5fresh c5db = .ok (c5ctx1, c5inst1, c5db1) ∧
    get_or_create_context c5inst1 c5db1 =
      .ok (c5inst1.context, c5inst1, c5db1) := by
  have h1 : get_or_create_context c5fresh c5db = .ok (c5ctx1, c5inst1, c5db1) := by
    decide
  exact ⟨h1, ((context_build_idempotent c5fresh c5db).2 c5ctx1 c5inst1 c5db1 h1).1⟩

lemma parse_eq_of (decls : List (String × Param))
    (kwargs : List (String × PValue)) (ps : List PEntry)
    (hres : resolveParams decls kwargs = .ok ps)
    (hchk : checkBundled ps = .ok ()) :
    parse_parameters decls kwargs =
      (match bundleSizeOf ps with
       | .ok bs => .ok (bs, ps.map (markIndexed bs))
       | .error e => .error e) := by
  cases hb : bundleSizeOf ps <;> simp [parse_parameters, hres, hchk, hb]

/-- The list of lengths collected into `relevant_lengths` (base.py:397-404). -/
def lengthsOf (ps : List PEntry) : List Nat :=
  (relevantLengths ps).map Prod.snd

lemma sdiff_one_toFinset (l : List Nat) :
    l.toFinset \ {1} = (l.filter (fun x => x ≠ 1)).toFinset := by
  ext x
  simp [List.mem_filter]

lemma distinct_empty_iff (ps : List PEntry) :
    distinctLengths ps = [] ↔ (lengthsOf ps).toFinset \ {1} = ∅ := by
  rw [sdiff_one_toFinset]
  unfold distinctLengths lengthsOf
  rw [List.dedup_eq_nil, List.toFinset_eq_empty_iff]

lemma nodup_toFinset_singleton {l : List Nat} {a : Nat} (hn : l.Nodup)
    (h : l.toFinset = {a}) : l = [a] := by
  cases l with
  | nil => exact absurd h.symm (Finset.singleton_ne_empty a)
  | cons x xs =>
    have hx : x = a := by
      have hm : x ∈ (x :: xs).toFinset := by simp
      rw [h] at hm
      simpa using hm
    cases xs with
    | nil => rw [hx]
    | cons y ys =>
      exfalso
      have hy : y = a := by
        have hm : y ∈ (x :: y :: ys).toFinset := by simp
        rw [h] at hm
        simpa using hm
      obtain ⟨hnx, _⟩ := List.nodup_cons.mp hn
      exact hnx (by rw [hx, ← hy]; exact List.mem_cons_self y ys)

lemma toFinset_dedup_list (l : List Nat) : l.dedup.toFinset = l.toFinset := by
  ext x
  simp [List.mem_toFinset, List.mem_dedup]

lemma distinct_singleton (ps : List PEntry) (L : Nat)
    (h : (lengthsOf ps).toFinset \ {1} = {L}) : distinctLengths ps = [L] := by
  rw [sdiff_one_toFinset] at h
  unfold distinctLengths
  apply nodup_toFinset_singleton (List.nodup_dedup _)
  rw [toFinset_dedup_list]
  exact h

lemma distinct_card (ps : List PEntry) :
    ((lengthsOf ps).toFinset \ {1}).card = (distinctLengths ps).length := by
  rw [sdiff_one_toFinset, List.card_toFinset]
  rfl

/-- C1 (amended): the batch size is inferred from the set of distinct
lengths, excluding 1, of the non-bundled, non-defaulted, non-structured
*and non-string* parameters (the string exclusion of base.py:402 is absent
from the claim as stated; see the counterexample above): an empty set gives
batch size 1, a singleton `{L}` gives batch size `L`, and two or more
distinct lengths make `parse_parameters` fail with the mismatched-bundling
error listing the collected lengths. -/
theorem parse_parameters_bundle_size (decls : List (String × Param))
    (kwargs : List (String × PValue)) (ps : List PEntry)
    (hres : resolveParams decls kwargs = .ok ps)
    (hchk : checkBundled ps = .ok ()) :
    ((lengthsOf ps).toFinset \ {1} = ∅ →
      parse_parameters decls kwargs = .ok (1, ps.map (markIndexed 1))) ∧
    (∀ L, (lengthsOf ps).toFinset \ {1} = {L} →
      parse_parameters decls kwargs = .ok (L, ps.map (markIndexed L))) ∧
    (2 ≤ ((lengthsOf ps).toFinset \ {1}).card →
      parse_parameters decls kwargs =
        .error (.mismatchedBundling (relevantLengths ps))) := by
  have hp := parse_eq_of decls kwargs ps hres hchk
  refine ⟨?_, ?_, ?_⟩
  · intro hS
    have hd : distinctLengths ps = [] := (distinct_empty_iff ps).mpr hS
    have hb : bundleSizeOf ps = .ok 1 := by unfold bundleSizeOf; rw [hd]
    rw [hp, hb]
  · intro L hS
    have hd := distinct_singleton ps L hS
    have hb : bundleSizeOf ps = .ok L := by unfold bundleSizeOf; rw [hd]
    rw [hp, hb]
  · intro hS
    rw [distinct_card] at hS
    cases hd : distinctLengths ps with
    | nil => rw [hd] at hS; simp at hS
    | cons a tl =>
      cases tl with
      | nil => rw [hd] at hS; simp at hS
      | cons b tl2 =>
        have hb : bundleSizeOf ps =
            .error (.mismatchedBundling (relevantLengths ps)) := by
          unfold bundleSizeOf; rw [hd]
        rw [hp, hb]

/-- The length collection as the batch-size claim words it: the lengths of
all parameters that are not bundled, not defaulted, and not of a structured
kind — with *no* exclusion of strings.  This definition follows the claim's
words and is compared against `relevantLengths`/`bundleSizeOf`, which are
translated from base.py:397-417 and additionally exclude string values
(base.py:402). -/
def claimLengthsOf (ps : List PEntry) : List Nat :=
  (ps.filter (fun e =>
    !e.param.bundled && !e.default && !isStructured e.param)).map
      (fun e => e.length)

def cx1decls : List (String × Param) := [("s", ⟨false, .plain, none⟩)]

def cx1kwargs : List (String × PValue) := [("s", .vStr "abc")]

def cx1ps : List PEntry :=
  [⟨"s", ⟨false, .plain, none⟩, .vStr "abc", false, 3⟩]

def cx2decls : List (String × Param) :=
  [("s", ⟨false, .plain, none⟩), ("t", ⟨false, .plain, none⟩)]

def cx2kwargs : List (String × PValue) :=
  [("s", .vStr "ab"), ("t", .vStr "abc")]

def cx2ps : List PEntry :=
  [⟨"s", ⟨false, .plain, none⟩, .vStr "ab", false, 2⟩,
   ⟨"t", ⟨false, .plain, none⟩, .vStr "abc", false, 3⟩]

/-- C1 (counterexample to the claim as stated): the claim infers the batch
size from all non-bundled, non-defaulted, non-structured parameters, but
the code (base.py:402) additionally excludes strings from the length
reconciliation.  For a single plain parameter supplied the string "abc"
the claim's distinct-length set is `{3}` — predicting batch size 3 — yet
`parse_parameters` returns batch size 1; for two plain string parameters
"ab" and "abc" the claim's set has two distinct lengths > 1 — predicting a
mismatched-bundling failure — yet `parse_parameters` succeeds with batch
size 1. -/
theorem parse_parameters_string_exclusion_counterexample :
    resolveParams cx1decls cx1kwargs = .ok cx1ps ∧
    (claimLengthsOf cx1ps).toFinset \ {1} = {3} ∧
    parse_parameters cx1decls cx1kwargs = .ok (1, cx1ps.map (markIndexed 1)) ∧
    parse_parameters cx1decls cx1kwargs ≠ .ok (3, cx1ps.map (markIndexed 3)) ∧
    resolveParams cx2decls cx2kwargs = .ok cx2ps ∧
    2 ≤ ((claimLengthsOf cx2ps).toFinset \ {1}).card ∧
    parse_parameters cx2decls cx2kwargs =
      .ok (1, cx2ps.map (markIndexed 1)) := by
  refine ⟨by decide, by decide, by decide, by decide, by decide, by decide,
    by decide⟩

def c1decls : List (String × Param) := [("x", ⟨false, .plain, none⟩)]

def c1kwargs : List (String × PValue) :=
  [("x", .vList [.vInt 1, .vInt 2, .vInt 3])]

def c1ps : List PEntry :=
  [⟨"x", ⟨false, .plain, none⟩, .vList [.vInt 1, .vInt 2, .vInt 3], false, 3⟩]

theorem parse_parameters_bundle_size_witness :
    resolveParams c1decls c1kwargs = .ok c1ps ∧
    (lengthsOf c1ps).toFinset \ {1} = {3} ∧
    parse_parameters c1decls c1kwargs = .ok (3, c1ps.map (markIndexed 3)) :=
  ⟨by decide, by decide,
    (parse_parameters_bundle_size c1decls c1kwargs c1ps (by decide)
      (by decide)).2.1 3 (by decide)⟩

/-- C2: a bundled, non-structured parameter holding a non-string iterable
of length > 1 makes construction fail with a bundled-parameter error,
whatever the inferred batch size would have been; a structured
(tuple/dict) declaration is never flagged by this check, whatever its
value. -/
theorem bundled_param_rejection (decls : List (String × Param))
    (kwargs : List (String × PValue)) (ps : List PEntry)
    (hres : resolveParams decls kwargs = .ok ps) :
    ((∃ e ∈ ps, violatesBundled e = true) →
      ∃ n, parse_parameters decls kwargs = .error (.bundledParam n)) ∧
    (∀ e ∈ ps, isStructured e.param = true → violatesBundled e = false) := by
  constructor
  · rintro ⟨e, he, hv⟩
    rcases hfind : ps.find? violatesBundled with _ | e0
    · rw [List.find?_eq_none] at hfind
      exact absurd hv (by simpa using hfind e he)
    · refine ⟨e0.name, ?_⟩
      have hchk : checkBundled ps = .error (.bundledParam e0.name) := by
        unfold checkBundled; rw [hfind]
      simp [parse_parameters, hres, hchk]
  · intro e he hs
    unfold violatesBundled
    simp [hs]

def c2decls : List (String × Param) := [("b", ⟨true, .plain, none⟩)]

def c2kwargs : List (String × PValue) :=
  [("b", .vList [.vInt 1, .vInt 2, .vInt 3])]

def c2ps : List PEntry :=
  [⟨"b", ⟨true, .plain, none⟩, .vList [.vInt 1, .vInt 2, .vInt 3], false, 3⟩]

def c2declsT : List (String × Param) := [("b", ⟨true, .tupleParam, none⟩)]

def c2psT : List PEntry :=
  [⟨"b", ⟨true, .tupleParam, none⟩, .vList [.vInt 1, .vInt 2, .vInt 3],
    false, 3⟩]

theorem bundled_param_rejection_witness :
    (∃ n, parse_parameters c2decls c2kwargs = .error (.bundledParam n)) ∧
    violatesBundled ⟨"b", ⟨true, .tupleParam, none⟩,
      .vList [.vInt 1, .vInt 2, .vInt 3], false, 3⟩ = false ∧
    parse_parameters c2declsT c2kwargs =
      .ok (1, c2psT.map (markIndexed 1)) := by
  refine ⟨(bundled_param_rejection c2decls c2kwargs c2ps (by decide)).1
    ⟨⟨"b", ⟨true, .plain, none⟩, .vList [.vInt 1, .vInt 2, .vInt 3],
      false, 3⟩, by decide, by decide⟩, ?_, by decide⟩
  exact (bundled_param_rejection c2declsT c2kwargs c2psT (by decide)).2
    ⟨"b", ⟨true, .tupleParam, none⟩, .vList [.vInt 1, .vInt 2, .vInt 3],
      false, 3⟩ (by decide) (by decide)

lemma mapE_ok_length {α β E : Type} {f : α → Except E β} :
    ∀ {l : List α} {l' : List β}, mapE f l = .ok l' → l'.length = l.length := by
  intro l
  induction l with
  | nil =>
    intro l' h
    simp [mapE] at h
    simp [← h]
  | cons a as ih =>
    intro l' h
    simp only [mapE] at h
    cases hf : f a with
    | error e => rw [hf] at h; simp at h
    | ok b =>
      rw [hf] at h
      cases hm : mapE f as with
      | error e => rw [hm] at h; simp at h
      | ok bs =>
        rw [hm] at h
        simp at h
        simp [← h, ih hm]

lemma mapE_ok_get {α β E : Type} {f : α → Except E β} :
    ∀ {l : List α} {l' : List β}, mapE f l = .ok l' →
      ∀ i a, l.get? i = some a → ∃ b, f a = .ok b ∧ l'.get? i = some b := by
  intro l
  induction l with
  | nil => intro l' h i a ha; simp at ha
  | cons x xs ih =>
    intro l' h i a ha
    simp only [mapE] at h
    cases hf : f x with
    | error e => rw [hf] at h; simp at h
    | ok b =>
      rw [hf] at h
      cases hm : mapE f xs with
      | error e => rw [hm] at h; simp at h
      | ok bs =>
        rw [hm] at h
        simp at h
        cases i with
        | zero =>
          rw [List.get?_cons_zero] at ha
          injection ha with ha
          exact ⟨b, by rw [← ha]; exact hf, by rw [← h, List.get?_cons_zero]⟩
        | succ j =>
          rw [List.get?_cons_succ] at ha
          obtain ⟨b', hb1, hb2⟩ := ih hm j a ha
          exact ⟨b', hb1, by rw [← h, List.get?_cons_succ]; exact hb2⟩

lemma mapE_ok_of {α β E : Type} {f : α → Except E β} :
    ∀ {l : List α}, (∀ a ∈ l, ∃ b, f a = .ok b) → ∃ l', mapE f l = .ok l' := by
  intro l
  induction l with
  | nil => intro _; exact ⟨[], rfl⟩
  | cons x xs ih =>
    intro h
    obtain ⟨b, hb⟩ := h x (List.mem_cons_self x xs)
    obtain ⟨bs, hbs⟩ := ih (fun a ha => h a (List.mem_cons_of_mem x ha))
    exact ⟨b :: bs, by simp [mapE, hb, hbs]⟩

lemma snapEntry_ok {i : Nat} {e : ParsedEntry} {p : String × PValue}
    (h : snapEntry i e = .ok p) :
    p = (e.name, if e.indexed then pyAt e.value i else e.value) := by
  unfold snapEntry at h
  by_cases hind : e.indexed
  · rw [if_pos hind] at h
    cases hp : pyIndex e.value i with
    | none => rw [hp] at h; simp at h
    | some v =>
      rw [hp] at h
      simp at h
      simp [← h, hind, pyAt, hp]
  · rw [if_neg hind] at h
    simp at h
    simp [← h, hind]

lemma snapEntry_isOk {i : Nat} {e : ParsedEntry}
    (h : e.indexed = true → ∃ v, pyIndex e.value i = some v) :
    ∃ p, snapEntry i e = .ok p := by
  unfold snapEntry
  by_cases hind : e.indexed
  · obtain ⟨v, hv⟩ := h hind
    exact ⟨(e.name, v), by rw [if_pos hind, hv]⟩
  · exact ⟨(e.name, e.value), by rw [if_neg hind]⟩

lemma snapshotAt_ok_eq {params : List ParsedEntry} {i : Nat}
    {l : List (String × PValue)} (h : snapshotAt params i = .ok l) :
    l = params.map
      (fun e => (e.name, if e.indexed then pyAt e.value i else e.value)) := by
  induction params generalizing l with
  | nil =>
    simp only [snapshotAt, mapE] at h
    simp at h
    simp [← h]
  | cons e es ih =>
    simp only [snapshotAt, mapE] at h
    cases hf : snapEntry i e with
    | error err => rw [hf] at h; simp at h
    | ok p =>
      rw [hf] at h
      cases hm : mapE (snapEntry i) es with
      | error err => rw [hm] at h; simp at h
      | ok ps' =>
        rw [hm] at h
        simp at h
        rw [← h, snapEntry_ok hf, ih hm]
        simp

lemma parse_ok_components {decls : List (String × Param)}
    {kwargs : List (String × PValue)} {N : Nat} {parsed : List ParsedEntry}
    (h : parse_parameters decls kwargs = .ok (N, parsed)) :
    ∃ ps, resolveParams decls kwargs = .ok ps ∧ checkBundled ps = .ok () ∧
      bundleSizeOf ps = .ok N ∧ parsed = ps.map (markIndexed N) := by
  unfold parse_parameters at h
  cases h1 : resolveParams decls kwargs with
  | error e => simp [h1] at h
  | ok ps =>
    simp only [h1] at h
    cases h2 : checkBundled ps with
    | error e => simp [h2] at h
    | ok u =>
      simp only [h2] at h
      cases h3 : bundleSizeOf ps with
      | error e => simp [h3] at h
      | ok bs =>
        simp only [h3] at h
        simp at h
        obtain ⟨hN, hp⟩ := h
        cases u
        exact ⟨ps, rfl, h2, by rw [hN] at h3; exact h3, by rw [← hp, hN]⟩

lemma resolveParams_mem_length {decls : List (String × Param)}
    {kwargs : List (String × PValue)} {ps : List PEntry}
    (hres : resolveParams decls kwargs = .ok ps) :
    ∀ e ∈ ps, e.length = pyLen e.value := by
  have hps : ps = decls.filterMap (fun d => resolveEntry kwargs d.1 d.2) := by
    unfold resolveParams at hres
    cases hm : missingNames decls kwargs with
    | cons m ms => rw [hm] at hres; simp at hres
    | nil =>
      rw [hm] at hres
      cases hu : unexpectedNames decls kwargs with
      | cons u us => rw [hu] at hres; simp at hres
      | nil =>
        rw [hu] at hres
        simp at hres
        rw [hres]
  rw [hps]
  intro e he
  rw [List.mem_filterMap] at he
  obtain ⟨d, _, hre⟩ := he
  unfold resolveEntry at hre
  cases hlk : lookupKw kwargs d.1 with
  | some v =>
    rw [hlk] at hre
    simp at hre
    simp [← hre]
  | none =>
    rw [hlk] at hre
    cases hd : d.2.default with
    | some v =>
      rw [hd] at hre
      simp at hre
      simp [← hre]
    | none => rw [hd] at hre; simp at hre

lemma markIndexed_indexed_iff (N : Nat) (e : PEntry) :
    (markIndexed N e).indexed = true ↔
      (1 < N ∧ e.length = N ∧ e.default = false ∧ e.param.bundled = false ∧
        isStructured e.param = false) := by
  unfold markIndexed
  simp [Bool.and_eq_true, decide_eq_true_eq, beq_iff_eq, Bool.not_eq_true']
  tauto

lemma pyIndex_isSome_of_lt {v : PValue} {i : Nat} (h2 : 2 ≤ pyLen v)
    (hi : i < pyLen v) : ∃ w, pyIndex v i = some w := by
  cases v with
  | vInt n => simp [pyLen] at h2
  | vStr s =>
    simp only [pyLen, String.length] at hi
    refine ⟨.vStr ⟨[s.data.get ⟨i, hi⟩]⟩, ?_⟩
    simp only [pyIndex]
    rw [List.get?_eq_get hi]
    rfl
  | vList l =>
    simp only [pyLen] at hi
    exact ⟨l.get ⟨i, hi⟩, List.get?_eq_get hi⟩

/-- C3: the `indexed` flag of a parsed parameter holds exactly when the
batch size exceeds 1, the parameter's length equals the batch size, and it
is neither defaulted, bundled, nor structured; and the context builder's
`i`-th task snapshot assigns `value[i]` to each indexed parameter and the
raw value to every other parameter, in the context's iteration order. -/
theorem indexed_snapshot (decls : List (String × Param))
    (kwargs : List (String × PValue)) (N : Nat) (parsed : List ParsedEntry)
    (h : parse_parameters decls kwargs = .ok (N, parsed)) :
    (∀ e ∈ parsed, e.indexed = true ↔
      (1 < N ∧ e.length = N ∧ e.default = false ∧ e.param.bundled = false ∧
        isStructured e.param = false)) ∧
    (∀ inst db, inst.bundle_size = N → inst.parameters = parsed →
      inst.context.iterable = none →
      ∃ ctx inst' db' iter,
        get_or_create_context inst db = .ok (ctx, inst', db') ∧
        ctx.iterable = some iter ∧ iter.length = N ∧
        ∀ i, i < N → ∃ t,
          iter.get? i = some (t, inst.input_data_products, t.parameters) ∧
          t.parameters = parsed.map
            (fun e => (e.name, if e.indexed then pyAt e.value i else e.value))) := by
  obtain ⟨ps, hres, hchk, hbs, hparsed⟩ := parse_ok_components h
  constructor
  · intro e he
    rw [hparsed] at he
    obtain ⟨e0, _, rfl⟩ := List.mem_map.mp he
    exact markIndexed_indexed_iff N e0
  · intro inst db hN hp hiter
    have hidx : ∀ i, i < N → ∀ e ∈ inst.parameters, e.indexed = true →
        ∃ v, pyIndex e.value i = some v := by
      intro i hi e he hind
      rw [hp, hparsed] at he
      obtain ⟨e0, he0, rfl⟩ := List.mem_map.mp he
      obtain ⟨h1, h2, _⟩ := (markIndexed_indexed_iff N e0).mp hind
      have hlen := resolveParams_mem_length hres e0 he0
      have hv : pyLen e0.value = N := by rw [← hlen, h2]
      have hveq : (markIndexed N e0).value = e0.value := rfl
      rw [hveq]
      exact pyIndex_isSome_of_lt (by omega) (by omega)
    have hsnap : ∀ i, i < N → ∃ l, snapshotAt inst.parameters i = .ok l := by
      intro i hi
      exact mapE_ok_of (fun e he => snapEntry_isOk (fun hind => hidx i hi e he hind))
    have hbuild : ∃ ts, buildTasks inst db.nextTaskId = .ok ts := by
      apply mapE_ok_of
      intro i hi
      obtain ⟨l, hl⟩ := hsnap i (by rw [← hN]; exact List.mem_range.mp hi)
      exact ⟨mkTaskRec inst (db.nextTaskId + i) l, by rw [hl]⟩
    obtain ⟨ts, hts⟩ := hbuild
    have hlen : ts.length = N := by
      rw [mapE_ok_length hts, List.length_range, hN]
    simp only [get_or_create_context, hiter, hts]
    refine ⟨_, _, _, _, rfl, rfl, by simp [hlen], ?_⟩
    intro i hi
    have hrange : (List.range inst.bundle_size).get? i = some i :=
      List.get?_range (by omega)
    obtain ⟨t, hft, hgt⟩ := mapE_ok_get hts i i hrange
    cases hsn : snapshotAt inst.parameters i with
    | error e => rw [hsn] at hft; simp at hft
    | ok l =>
      rw [hsn] at hft
      simp at hft
      refine ⟨t, ?_, ?_⟩
      · rw [List.get?_map, hgt]
        rfl
      · rw [← hft]
        show l = _
        rw [snapshotAt_ok_eq hsn, hp]

def c3decls : List (String × Param) :=
  [("x", ⟨false, .plain, none⟩), ("y", ⟨false, .plain, none⟩)]

def c3kwargs : List (String × PValue) :=
  [("x", .vList [.vInt 10, .vInt 20, .vInt 30, .vInt 40]), ("y", .vInt 5)]

def c3parsed : List ParsedEntry :=
  [⟨"x", ⟨false, .plain, none⟩, .vList [.vInt 10, .vInt 20, .vInt 30, .vInt 40],
    false, 4, true⟩,
   ⟨"y", ⟨false, .plain, none⟩, .vInt 5, false, 1, false⟩]

def c3inst : TaskInstance :=
  { taskName := "m.T", bundle_size := 4, parameters := c3parsed,
    context := Ctx.empty, input_data_products := [] }

def c3db : DB :=
  { nextTaskId := 0, nextBundleId := 0, tasks := [], bundles := [],
    taskBundles := [], taskInputDPs := [], statuses := [] }

theorem indexed_snapshot_witness :
    ∃ ctx inst' db', get_or_create_context c3inst c3db = .ok (ctx, inst', db') ∧
      ∃ iter, ctx.iterable = some iter ∧
        ∃ t, iter.get? 2 = some (t, c3inst.input_data_products, t.parameters) ∧
          t.parameters = [("x", .vInt 30), ("y", .vInt 5)] := by
  obtain ⟨-, hbuild⟩ := indexed_snapshot c3decls c3kwargs 4 c3parsed (by decide)
  obtain ⟨ctx, inst', db', iter, hg, hit, -, hall⟩ := hbuild c3inst c3db rfl rfl rfl
  obtain ⟨t, ht1, ht2⟩ := hall 2 (by omega)
  refine ⟨ctx, inst', db', hg, iter, hit, t, ht1, ?_⟩
  rw [ht2]
  decide

lemma relevantLengths_filter_str (ps : List PEntry) :
    relevantLengths ps = relevantLengths (ps.filter (fun e => !isStr e.value)) := by
  unfold relevantLengths
  rw [List.filter_filter]
  congr 1
  apply List.filter_congr
  intro e _
  cases hs : isStr e.value <;> simp [relevantKeep, hs]

/-- C10: a plain string is excluded from the length reconciliation that
infers the batch size (removing all string-valued entries changes neither
`relevant_lengths` nor the inferred bundle size), yet the `indexed`
computation does not exclude strings: a non-bundled, non-defaulted,
non-structured string whose length equals an inferred batch size N > 1 is
marked indexed, and the snapshot value at every batch index is the single
character `value[i]`. -/
theorem string_indexing_asymmetry (decls : List (String × Param))
    (kwargs : List (String × PValue)) (ps : List PEntry) (N : Nat)
    (parsed : List ParsedEntry)
    (hres : resolveParams decls kwargs = .ok ps)
    (h : parse_parameters decls kwargs = .ok (N, parsed)) :
    (relevantLengths ps = relevantLengths (ps.filter (fun e => !isStr e.value)) ∧
     bundleSizeOf ps = bundleSizeOf (ps.filter (fun e => !isStr e.value))) ∧
    (∀ e ∈ parsed, isStr e.value = true → e.param.bundled = false →
      e.default = false → isStructured e.param = false → 1 < N →
      e.length = N → e.indexed = true) ∧
    (∀ e ∈ parsed, ∀ s, e.value = .vStr s → e.indexed = true →
      ∀ i, i < N → ∃ c, s.data.get? i = some c ∧
        pyAt e.value i = .vStr ⟨[c]⟩) := by
  obtain ⟨ps', hres', hchk, hbs, hparsed⟩ := parse_ok_components h
  refine ⟨⟨relevantLengths_filter_str ps, ?_⟩, ?_, ?_⟩
  · unfold bundleSizeOf distinctLengths
    rw [← relevantLengths_filter_str]
  · intro e he hs hb hd hst hN hlen
    rw [hparsed] at he
    obtain ⟨e0, he0, rfl⟩ := List.mem_map.mp he
    exact (markIndexed_indexed_iff N e0).mpr ⟨hN, hlen, hd, hb, hst⟩
  · intro e he s hv hind i hi
    rw [hparsed] at he
    obtain ⟨e0, he0, rfl⟩ := List.mem_map.mp he
    obtain ⟨h1, h2, _⟩ := (markIndexed_indexed_iff N e0).mp hind
    have hlen := resolveParams_mem_length hres' e0 he0
    have hslen : s.length = N := by
      have : pyLen e0.value = N := by rw [← hlen, h2]
      rw [show e0.value = PValue.vStr s from hv] at this
      simpa [pyLen] using this
    have hid : i < s.data.length := by
      have hl : s.length = s.data.length := rfl
      omega
    refine ⟨s.data.get ⟨i, hid⟩, List.get?_eq_get hid, ?_⟩
    show pyAt (markIndexed N e0).value i = _
    rw [show (markIndexed N e0).value = PValue.vStr s from hv]
    unfold pyAt
    rw [show pyIndex (PValue.vStr s) i =
      (s.data.get? i).map (fun c => PValue.vStr ⟨[c]⟩) from rfl]
    rw [List.get?_eq_get hid]
    rfl

def c10decls : List (String × Param) :=
  [("x", ⟨false, .plain, none⟩), ("s", ⟨false, .plain, none⟩),
   ("t", ⟨false, .plain, none⟩)]

def c10kwargs : List (String × PValue) :=
  [("x", .vList [.vInt 1, .vInt 2]), ("s", .vStr "ab"), ("t", .vStr "abc")]

def c10ps : List PEntry :=
  [⟨"x", ⟨false, .plain, none⟩, .vList [.vInt 1, .vInt 2], false, 2⟩,
   ⟨"s", ⟨false, .plain, none⟩, .vStr "ab", false, 2⟩,
   ⟨"t", ⟨false, .plain, none⟩, .vStr "abc", false, 3⟩]

def c10parsed : List ParsedEntry :=
  [⟨"x", ⟨false, .plain, none⟩, .vList [.vInt 1, .vInt 2], false, 2, true⟩,
   ⟨"s", ⟨false, .plain, none⟩, .vStr "ab", false, 2, true⟩,
   ⟨"t", ⟨false, .plain, none⟩, .vStr "abc", false, 3, false⟩]

theorem string_indexing_asymmetry_witness :
    parse_parameters c10decls c10kwargs = .ok (2, c10parsed) ∧
    (⟨"s", ⟨false, .plain, none⟩, .vStr "ab", false, 2, true⟩ :
      ParsedEntry).indexed = true ∧
    (∃ c, "ab".data.get? 0 = some c ∧
      pyAt (.vStr "ab") 0 = .vStr ⟨[c]⟩) ∧
    pyAt (.vStr "ab") 0 = .vStr "a" := by
  obtain ⟨-, hidx, hsnap⟩ := string_indexing_asymmetry c10decls c10kwargs
    c10ps 2 c10parsed (by decide) (by decide)
  refine ⟨by decide, ?_, ?_, by decide⟩
  · exact hidx ⟨"s", ⟨false, .plain, none⟩, .vStr "ab", false, 2, true⟩
      (by decide) (by decide) (by decide) (by decide) (by decide) (by decide)
      (by decide)
  · exact hsnap ⟨"s", ⟨false, .plain, none⟩, .vStr "ab", false, 2, true⟩
      (by decide) "ab" rfl (by decide) 0 (by omega)

end Astra
